import Mathlib

/-!
Shallow embedding of the retrieval-augmented fan-out pipeline:
`src/data_loader/document_processor.py` (chunking, embedding gateway,
vector store build/load/search) and `src/agents/multi_agent_system.py`
(the LangGraph dispatch-and-consolidation workflow).

External capabilities (the remote embedding model, the local fallback
model, the FAISS nearest-neighbour search, and the text-generation
model behind each specialist) are modelled as explicit oracle
parameters; floating-point distances and vector components are
modelled as rationals.  All definitions are executable.
-/

/-- Python `str.strip()` as used in `MultiAgentSystem.invoke`
(multi_agent_system.py line 156): drop leading and trailing whitespace.
The guard `if not query or not query.strip()` is equivalent to
`query.strip() == ""` because the empty string strips to itself. -/
def pyStrip (s : String) : String :=
  String.mk (((s.data.dropWhile Char.isWhitespace).reverse.dropWhile
    Char.isWhitespace).reverse)

/-! ## Chunking — `DocumentProcessor._chunk_text` (document_processor.py 297-318) -/

/-- Loop body of `_chunk_text`.  `start` is the loop variable; the fuel
argument bounds the number of iterations (the Python `while` loop; with
`overlap < chunk_size` every iteration advances `start` by
`chunk_size - overlap ≥ 1`, so `text.length + 1` units of fuel always
suffice).  `end = start + chunk_size` clamped to the text length; the
chunk is `text[start:end]`; the loop breaks after the final chunk,
otherwise `start = end - overlap` clamped at 0 (truncated subtraction). -/
def chunkTextAux (text : List Char) (chunk_size overlap : Nat) :
    Nat → Nat → List (List Char)
  | 0, _ => []
  | fuel+1, start =>
    if start < text.length then
      let e := min (start + chunk_size) text.length
      let chunk := (text.drop start).take (e - start)
      if e = text.length then
        [chunk]
      else
        chunk :: chunkTextAux text chunk_size overlap fuel (e - overlap)
    else []

/-- `DocumentProcessor._chunk_text(text, chunk_size, overlap)`:
split text into overlapping windows.  Source defaults are
`chunk_size=1000`, `overlap=200`. -/
def chunk_text (text : List Char) (chunk_size : Nat := 1000)
    (overlap : Nat := 200) : List (List Char) :=
  chunkTextAux text chunk_size overlap (text.length + 1) 0

/-- Reconstruction operator from the spec's round-trip property: chunk 0
concatenated with every later chunk minus its first `overlap` characters. -/
def joinWithOverlap (overlap : Nat) : List (List Char) → List Char
  | [] => []
  | c :: rest => c ++ (rest.map (fun x => x.drop overlap)).flatten

/-! ## Embedding gateway — `DocumentProcessor.get_bedrock_embedding` (26-92) -/

/-- Outcome of one remote embedding attempt, classified the way the
`except` clause of `get_bedrock_embedding` classifies the error text:
a throttling signal (`"ThrottlingException" in error_msg`), an access
denial (`"AccessDenied" in error_msg`), or any other failure.  A
successful call that returns an empty vector raises
`ValueError("Empty embedding received")` inside the `try`, whose
message matches neither substring, so it lands in the terminal branch;
`RemoteOutcome.ok []` is therefore treated like `err`. -/
inductive RemoteOutcome where
  | ok (v : List ℚ)
  | throttling
  | accessDenied
  | err
deriving DecidableEq

/-- `DocumentProcessor._get_fallback_embedding` (80-92): the local
sentence-transformer model (`all-MiniLM-L6-v2`, which produces
384-dimension vectors) when it is available, otherwise the last-resort
zero vector `[0.0] * 384`. -/
def fallback_embedding (localModel : Option (List ℚ)) : List ℚ :=
  match localModel with
  | some v => v
  | none => List.replicate 384 0

/-- Retry loop of `get_bedrock_embedding` (28-74).  `remote n` is the
outcome of attempt `n`; the first argument counts the remaining
iterations of `for attempt in range(max_retries)`.  Throttling retries
while attempts remain (`attempt < max_retries - 1`); access denial and
every other failure `break` out; exhausting the loop falls through to
the fallback (76-78). -/
def bedrockLoop (remote : Nat → RemoteOutcome) (localModel : Option (List ℚ))
    (max_retries : Nat) : Nat → Nat → List ℚ
  | 0, _ => fallback_embedding localModel
  | remaining+1, attempt =>
    match remote attempt with
    | RemoteOutcome.ok v =>
        if v = [] then fallback_embedding localModel else v
    | RemoteOutcome.throttling =>
        if attempt < max_retries - 1 then
          bedrockLoop remote localModel max_retries remaining (attempt + 1)
        else fallback_embedding localModel
    | RemoteOutcome.accessDenied => fallback_embedding localModel
    | RemoteOutcome.err => fallback_embedding localModel

/-- `DocumentProcessor.get_bedrock_embedding(text, max_retries=5)`.
The text argument is absorbed into the oracles (`remote` is the remote
model's answer per attempt for this text, `localModel` the local
model's answer); sleeps and logging are side effects without data flow. -/
def get_bedrock_embedding (remote : Nat → RemoteOutcome)
    (localModel : Option (List ℚ)) (max_retries : Nat := 5) : List ℚ :=
  bedrockLoop remote localModel max_retries max_retries 0

/-! ## Vector store — `DocumentProcessor` state and build/load/search -/

/-- One document record (the dict payload; its content only matters
through the embedding oracle, so it is modelled opaquely). -/
abbrev Doc := String

/-- In-memory state of `DocumentProcessor`: `self.index` (a FAISS
`IndexFlatL2` holding the added vectors, `None` until built) and
`self.documents`. -/
structure VectorStore where
  index : Option (List (List ℚ))
  documents : List Doc
deriving DecidableEq

/-- Records retained by the build loop of `create_vector_store`
(331-351): each document is embedded and kept iff its embedding is
non-empty (`if embedding and len(embedding) > 0`).
`get_bedrock_embedding` never raises, so the per-document `except`
branch is dead. -/
def retained (embed : Doc → List ℚ) (docs : List Doc) :
    List (Doc × List ℚ) :=
  docs.filterMap fun d => if embed d = [] then none else some (d, embed d)

/-- `DocumentProcessor.create_vector_store` (320-366), without the
persistence side effect.  An empty input list or zero retained
embeddings returns with the store untouched.  Otherwise
`np.array(embeddings).astype('float32')` requires all retained vectors
to share one dimension; on a ragged list numpy raises
`ValueError: setting an array element with a sequence`, which
propagates out of the uncaught region (357-364), leaving the store
unchanged.  On success the index is built over exactly the retained
vectors and `self.documents` becomes the retained records. -/
def create_vector_store (embed : Doc → List ℚ) (docs : List Doc)
    (st : VectorStore) : Except String VectorStore :=
  if docs = [] then Except.ok st
  else
    match retained embed docs with
    | [] => Except.ok st
    | p :: rest =>
      if rest.all fun q => q.2.length = p.2.length then
        Except.ok
          { index := some ((p :: rest).map Prod.snd)
            documents := (p :: rest).map Prod.fst }
      else Except.error "setting an array element with a sequence"

/-- Metadata document (`metadata.json`).  The loader reads only
`total_documents` and `created_at` (427-428); either key may be absent,
in which case the access raises `KeyError`. -/
structure ArtifactMetadata where
  total_documents : Option Nat
  created_at : Option String
deriving DecidableEq

/-- Durable artifacts under the storage root: serialized index,
pickled record list, metadata JSON.  `none` = missing (or unreadable)
file. -/
structure Artifacts where
  index_file : Option (List (List ℚ))
  documents_file : Option (List Doc)
  metadata_file : Option ArtifactMetadata
deriving DecidableEq

/-- `DocumentProcessor.load_vector_store` (406-435).  Requires the
index file and the documents file; the metadata file is only read when
it exists, after `self.index` and `self.documents` have already been
assigned.  A metadata read that lacks `total_documents` or
`created_at` raises inside the `try`, so the function returns `False`
with the store already mutated.  No consistency check compares the
metadata count with the loaded record list. -/
def load_vector_store (a : Artifacts) (st : VectorStore) :
    Bool × VectorStore :=
  match a.index_file, a.documents_file with
  | some idx, some docs =>
    let st1 : VectorStore := { index := some idx, documents := docs }
    match a.metadata_file with
    | some m =>
      match m.total_documents, m.created_at with
      | some _, some _ => (true, st1)
      | some _, none => (false, st1)
      | none, _ => (false, st1)
    | none => (true, st1)
  | some _, none => (false, st)
  | none, _ => (false, st)

/-- Similarity score of `search_documents` (456):
`1 / (1 + distance) if distance > 0 else 1.0`. -/
def similarity_score (d : ℚ) : ℚ :=
  if 0 < d then 1 / (1 + d) else 1

/-- One entry of the result list built at 458-462. -/
structure SearchResult where
  document : Doc
  score : ℚ
  distance : ℚ
deriving DecidableEq

/-- Result-building loop of `search_documents` (452-462): one entry
per returned row, kept under the guard `if idx < len(self.documents)`,
each scored by `similarity_score` of its distance. -/
def searchRawResults (st : VectorStore) (raw : List (ℚ × Nat)) :
    List SearchResult :=
  raw.filterMap fun p =>
    if h : p.2 < st.documents.length then
      some ⟨st.documents.get ⟨p.2, h⟩, similarity_score p.1, p.1⟩
    else none

/-- `DocumentProcessor.search_documents(query, k=5)` (437-476).  The
FAISS call `self.index.search(query_array, min(k, len(self.documents)))`
is the oracle `faiss`, mapping the requested neighbour count to the
(distance, slot-index) rows it returns.  Results are then sorted by
score, highest first (`results.sort(key=..., reverse=True)`, a stable
sort).  The query-embedding call never raises in this model, so the
three-attempt retry around it collapses to one pass. -/
def search_documents (st : VectorStore) (faiss : Nat → List (ℚ × Nat))
    (k : Nat := 5) : List SearchResult :=
  match st.index with
  | none => []
  | some _ =>
    if st.documents.length = 0 then []
    else
      (searchRawResults st (faiss (min k st.documents.length))).mergeSort
        fun a b => decide (b.score ≤ a.score)

/-! ## Multi-agent workflow — `agents/multi_agent_system.py` -/

/-- The `AgentState` TypedDict (multi_agent_system.py 10-16); the
`all_responses` field is written once at initialisation and never read,
so it is omitted.  Empty string = unset (Python falsiness, which is
what `_route_to_agents` and `_orchestrate_response` test). -/
structure AgentState where
  query : String
  maintenance_response : String
  field_support_response : String
  workload_response : String
  final_response : String
deriving DecidableEq

/-- External generation capability behind each specialist and behind
the consolidation prompt.  `Except.ok t` is a returned answer text,
`Except.error m` an exception with message `m` raised by the agent call. -/
structure Capabilities where
  maintenance : String → Except String String
  field_support : String → Except String String
  workload : String → Except String String
  consolidate : String → String → String → String → Except String String

/-- Conversion performed by each agent node's `try`/`except`
(76-101): an exception becomes the string `f"Error: {str(e)}"`. -/
def agentResult : Except String String → String
  | Except.ok t => t
  | Except.error m => "Error: " ++ m

/-- Conversion performed by `_create_final_response` (149-152): a
failure becomes `f"Error creating final response: {str(e)}"`.  In the
source this branch is in fact always taken, because
`self.agents["maintenance_scheduler"].aws_models` is a missing
attribute on `BaseAgent`; the oracle covers both branches. -/
def finalResult : Except String String → String
  | Except.ok t => t
  | Except.error m => "Error creating final response: " ++ m

/-- The four routing keys `_route_to_agents` can return, i.e. the
domain of the conditional-edges table at 45-54 (`"final"` maps to
`END`). -/
inductive NextNode where
  | maintenance_scheduler
  | field_support
  | workload_manager
  | final
deriving DecidableEq

/-- `MultiAgentSystem._route_to_agents` (63-74): pick the first role
whose response is still falsy, in the fixed order maintenance
scheduler, field support, workload manager; `final` once all three
have responded. -/
def route_to_agents (s : AgentState) : NextNode :=
  if s.maintenance_response = "" then NextNode.maintenance_scheduler
  else if s.field_support_response = "" then NextNode.field_support
  else if s.workload_response = "" then NextNode.workload_manager
  else NextNode.final

/-- Book-keeping for the claims: number of specialist agent calls,
number of `_create_final_response` consolidation calls, and the order
in which specialist calls were dispatched. -/
structure RunLog where
  specialist_calls : Nat
  consolidation_calls : Nat
  call_order : List String
deriving DecidableEq

/-- Append one specialist dispatch to the log. -/
def logCall (log : RunLog) (name : String) : RunLog :=
  { log with
      specialist_calls := log.specialist_calls + 1
      call_order := log.call_order ++ [name] }

/-- `MultiAgentSystem._invoke_maintenance_scheduler` (76-83). -/
def invoke_maintenance_scheduler (caps : Capabilities) (s : AgentState) :
    AgentState :=
  { s with maintenance_response := agentResult (caps.maintenance s.query) }

/-- `MultiAgentSystem._invoke_field_support` (85-92). -/
def invoke_field_support (caps : Capabilities) (s : AgentState) :
    AgentState :=
  { s with field_support_response := agentResult (caps.field_support s.query) }

/-- `MultiAgentSystem._invoke_workload_manager` (94-101). -/
def invoke_workload_manager (caps : Capabilities) (s : AgentState) :
    AgentState :=
  { s with workload_response := agentResult (caps.workload s.query) }

/-- `MultiAgentSystem._orchestrate_response` (103-121): once all three
role responses are truthy, build the consolidated final response via
`_create_final_response`; otherwise pass the state through unchanged. -/
def orchestrate_response (caps : Capabilities) (s : AgentState)
    (log : RunLog) : AgentState × RunLog :=
  if s.maintenance_response ≠ "" ∧ s.field_support_response ≠ "" ∧
      s.workload_response ≠ "" then
    ({ s with
        final_response := finalResult (caps.consolidate s.query
          s.maintenance_response s.field_support_response
          s.workload_response) },
     { log with consolidation_calls := log.consolidation_calls + 1 })
  else (s, log)

/-- Execution of the compiled StateGraph (31-61): entry point is the
orchestrator; the conditional edge then runs the routed agent node,
whose edge returns to the orchestrator; `"final"` ends the run.  The
fuel argument is LangGraph's recursion limit (default 25 super-steps);
exhausting it raises `GraphRecursionError`, modelled as `none`. -/
def run_graph (caps : Capabilities) :
    Nat → AgentState → RunLog → Option AgentState × RunLog
  | 0, _, log => (none, log)
  | fuel+1, s, log =>
    let p := orchestrate_response caps s log
    match route_to_agents p.1 with
    | NextNode.maintenance_scheduler =>
        run_graph caps fuel (invoke_maintenance_scheduler caps p.1)
          (logCall p.2 "maintenance_scheduler")
    | NextNode.field_support =>
        run_graph caps fuel (invoke_field_support caps p.1)
          (logCall p.2 "field_support")
    | NextNode.workload_manager =>
        run_graph caps fuel (invoke_workload_manager caps p.1)
          (logCall p.2 "workload_manager")
    | NextNode.final => (some p.1, p.2)

/-- Result of `MultiAgentSystem.invoke`: either the error dict
(`{"error": ...}`, which carries none of the role keys) or the final
graph state dict (which carries all of them). -/
inductive InvokeResult where
  | errorResult (msg : String)
  | stateResult (s : AgentState)
deriving DecidableEq

/-- The initial state built at 159-166 (all response fields empty,
query stripped). -/
def initial_state (q : String) : AgentState :=
  { query := q
    maintenance_response := ""
    field_support_response := ""
    workload_response := ""
    final_response := "" }

/-- `MultiAgentSystem.invoke` (154-172): reject an empty or
whitespace-only query before any dispatch, otherwise run the graph; a
`GraphRecursionError` from the graph is caught by the outer
`try`/`except` and surfaced as an error dict. -/
def invoke (caps : Capabilities) (query : String) : InvokeResult × RunLog :=
  if pyStrip query = "" then
    (InvokeResult.errorResult "Query cannot be empty", ⟨0, 0, []⟩)
  else
    let p := run_graph caps 25 (initial_state (pyStrip query)) ⟨0, 0, []⟩
    match p.1 with
    | some s => (InvokeResult.stateResult s, p.2)
    | none =>
      (InvokeResult.errorResult
        "Multi-agent system invocation failed: recursion limit reached",
       p.2)

/-! Concrete fixtures used by the witnesses and counterexamples below. -/

/-- Capabilities where one specialist raises and the consolidation call
fails (as it always does in the source, where
`self.agents["maintenance_scheduler"].aws_models` is a missing
attribute). -/
def capsDemo : Capabilities :=
  { maintenance := fun _ => Except.ok "M"
    field_support := fun _ => Except.error "boom"
    workload := fun _ => Except.ok "W"
    consolidate := fun _ _ _ _ => Except.error "no attribute" }

/-- Capabilities where the maintenance specialist succeeds with the
empty string, which the router treats as an unanswered role. -/
def capsEmptyAnswer : Capabilities :=
  { maintenance := fun _ => Except.ok ""
    field_support := fun _ => Except.ok "F"
    workload := fun _ => Except.ok "W"
    consolidate := fun _ _ _ _ => Except.ok "C" }

/-- Store with a two-vector index over two records. -/
def stDemo : VectorStore := ⟨some [[1, 0], [0, 1]], ["docA", "docB"]⟩

/-- FAISS oracle for `stDemo`: slot 0 at distance 2, slot 1 at
distance 1 (deliberately not sorted by distance). -/
def faissDemo : Nat → List (ℚ × Nat) := fun _ => [((2 : ℚ), 0), ((1 : ℚ), 1)]

/-- Remote embedding oracle that is denied on every attempt. -/
def remoteDenied : Nat → RemoteOutcome := fun _ => RemoteOutcome.accessDenied

/-- Local fallback model producing a 384-dimension vector, the
dimension of `all-MiniLM-L6-v2`. -/
def localDemo : Option (List ℚ) := some (List.replicate 384 1)

/-- Embedding oracle with mismatched dimensions across records. -/
def embed_mixed : Doc → List ℚ := fun d => if d = "a" then [1] else [1, 2]

/-- Embedding oracle with one shared dimension. -/
def embed_pair : Doc → List ℚ := fun _ => [1, 2]

/-- Embedding oracle that always returns the empty vector. -/
def embed_none : Doc → List ℚ := fun _ => []

/-- Durable artifacts whose metadata records 5 documents while the
pickled record list holds 2. -/
def artifacts_inconsistent : Artifacts :=
  ⟨some [[1]], some ["d1", "d2"], some ⟨some 5, some "2024-01-01"⟩⟩

/-- Durable artifacts with index and record list but no metadata file. -/
def artifacts_no_metadata : Artifacts := ⟨some [[1]], some ["d1"], none⟩

/-! Helper lemmas about the chunking loop. -/

/-- Flattening the chunks produced from position `start`, each first
stripped of its leading `ov` characters, yields the text from position
`start + ov`: consecutive chunks cover the text with exactly `ov`
characters of overlap and skip nothing. -/
theorem chunkTextAux_flatten_drop (text : List Char) (cs ov : Nat)
    (hov : ov < cs) :
    ∀ fuel start, text.length - start < fuel →
      ((chunkTextAux text cs ov fuel start).map (fun c => c.drop ov)).flatten
        = text.drop (start + ov) := by
  intro fuel
  induction fuel with
  | zero => intro start h; exact absurd h (Nat.not_lt_zero _)
  | succ fuel ih =>
    intro start h
    rw [chunkTextAux]
    by_cases hs : start < text.length
    · rw [if_pos hs]
      by_cases hE : min (start + cs) text.length = text.length
      · rw [if_pos hE]
        simp only [List.map_cons, List.map_nil, List.flatten_cons,
          List.flatten_nil, List.append_nil, hE]
        have htake : (text.drop start).take (text.length - start)
            = text.drop start := by
          apply List.take_of_length_le
          rw [List.length_drop]
        rw [htake, List.drop_drop]
      · rw [if_neg hE]
        have hcsL : start + cs < text.length := by
          rcases Nat.lt_or_ge (start + cs) text.length with h1 | h1
          · exact h1
          · exact absurd (Nat.min_eq_right h1) hE
        have he : min (start + cs) text.length = start + cs :=
          Nat.min_eq_left (Nat.le_of_lt hcsL)
        rw [he]
        simp only [List.map_cons, List.flatten_cons]
        rw [ih (start + cs - ov) (by omega)]
        have h1 : start + cs - ov + ov = start + cs := by omega
        have h2 : start + cs - start = cs := by omega
        rw [h1, h2, List.drop_take, List.drop_drop]
        have h3 : text.drop (start + cs)
            = (text.drop (start + ov)).drop (cs - ov) := by
          rw [List.drop_drop]
          congr 1
          omega
        rw [h3, List.take_append_drop]
    · rw [if_neg hs]
      simp only [List.map_nil, List.flatten_nil]
      rw [eq_comm]
      apply List.drop_eq_nil_of_le
      omega

/-- First chunk produced from a position inside the text. -/
theorem chunkTextAux_head (text : List Char) (cs ov fuel start : Nat)
    (hs : start < text.length) (hf : 0 < fuel) :
    ∃ rest, chunkTextAux text cs ov fuel start =
      ((text.drop start).take (min (start + cs) text.length - start))
        :: rest := by
  cases fuel with
  | zero => exact absurd hf (Nat.lt_irrefl 0)
  | succ f =>
    rw [chunkTextAux, if_pos hs]
    by_cases hE : min (start + cs) text.length = text.length
    · rw [if_pos hE]; exact ⟨[], rfl⟩
    · rw [if_neg hE]; exact ⟨_, rfl⟩

/-- Every pair of consecutive chunks agrees on its `ov`-character
overlap region: the suffix of length `ov` of one chunk is the prefix
of length `ov` of the next. -/
theorem chunkTextAux_chain (text : List Char) (cs ov : Nat) (hov : ov < cs) :
    ∀ fuel start, text.length - start < fuel →
      List.Chain' (fun a b => a.drop (a.length - ov) = b.take ov)
        (chunkTextAux text cs ov fuel start) := by
  intro fuel
  induction fuel with
  | zero => intro start h; exact absurd h (Nat.not_lt_zero _)
  | succ fuel ih =>
    intro start h
    rw [chunkTextAux]
    by_cases hs : start < text.length
    · rw [if_pos hs]
      by_cases hE : min (start + cs) text.length = text.length
      · rw [if_pos hE]; exact List.chain'_singleton _
      · rw [if_neg hE]
        have hcsL : start + cs < text.length := by
          rcases Nat.lt_or_ge (start + cs) text.length with h1 | h1
          · exact h1
          · exact absurd (Nat.min_eq_right h1) hE
        have he : min (start + cs) text.length = start + cs :=
          Nat.min_eq_left (Nat.le_of_lt hcsL)
        rw [he, List.chain'_cons']
        constructor
        · obtain ⟨rest2, hrest⟩ := chunkTextAux_head text cs ov fuel
            (start + cs - ov) (by omega) (by omega)
          rw [hrest]
          intro y hy
          simp only [List.head?_cons, Option.mem_def, Option.some.injEq] at hy
          subst hy
          have h2 : start + cs - start = cs := by omega
          rw [h2]
          have hlen : ((text.drop start).take cs).length = cs := by
            rw [List.length_take, List.length_drop]
            omega
          rw [hlen, List.drop_take, List.drop_drop]
          rw [List.take_take]
          have hK : ov ⊓ (min (start + cs - ov + cs) text.length
              - (start + cs - ov)) = ov := by
            omega
          rw [hK]
          have e1 : cs - (cs - ov) = ov := by omega
          have e2 : start + (cs - ov) = start + cs - ov := by omega
          rw [e1, e2]
        · exact ih (start + cs - ov) (by omega)
    · rw [if_neg hs]
      exact List.chain'_nil

/-! Helper lemmas about the search pipeline. -/

/-- Every entry of the pre-sort result list carries the score computed
from its own distance and a document taken from the stored record
list. -/
theorem searchRawResults_mem (st : VectorStore) (raw : List (ℚ × Nat))
    (r : SearchResult) (hr : r ∈ searchRawResults st raw) :
    r.score = similarity_score r.distance ∧ r.document ∈ st.documents := by
  rw [searchRawResults, List.mem_filterMap] at hr
  obtain ⟨p, _, hf⟩ := hr
  by_cases hlt : p.2 < st.documents.length
  · rw [dif_pos hlt, Option.some.injEq] at hf
    subst hf
    exact ⟨rfl, List.get_mem _ _ _⟩
  · rw [dif_neg hlt] at hf
    exact absurd hf (Option.noConfusion)

/-- Sorting by score, highest first, yields a sequence whose scores
are non-increasing. -/
theorem mergeSortScore_sorted (l : List SearchResult) :
    List.Chain' (fun a b => b.score ≤ a.score)
      (l.mergeSort fun a b => decide (b.score ≤ a.score)) := by
  have hp := @List.sorted_mergeSort SearchResult
    (fun a b : SearchResult => decide (b.score ≤ a.score))
    (fun a b c hab hbc => by
      simp only [decide_eq_true_eq] at hab hbc ⊢
      exact le_trans hbc hab)
    (fun a b => by
      simp only [Bool.or_eq_true, decide_eq_true_eq]
      exact le_total _ _) l
  exact (hp.imp fun h => of_decide_eq_true h).chain'

/-! Claim theorems. -/

/-- C1 (amended): for every query that is non-empty after stripping,
provided each specialist call produces a truthy (non-empty) response
string — which holds whenever a successful answer is non-empty, and
always holds for failures, since they become `"Error: " ++ msg` —
`invoke` returns the full state mapping: all three role responses
present and non-empty, together with a `final_response` produced by the
consolidation step, after exactly 3 specialist calls and 1
consolidation call.  No role-level failure (`Except.error`) prevents
the other roles or the consolidation step from producing their
entries. -/
theorem invoke_nonempty_query_completes (caps : Capabilities) (query : String)
    (hq : pyStrip query ≠ "")
    (hm : agentResult (caps.maintenance (pyStrip query)) ≠ "")
    (hf : agentResult (caps.field_support (pyStrip query)) ≠ "")
    (hw : agentResult (caps.workload (pyStrip query)) ≠ "") :
    invoke caps query =
      (InvokeResult.stateResult
        { query := pyStrip query
          maintenance_response := agentResult (caps.maintenance (pyStrip query))
          field_support_response :=
            agentResult (caps.field_support (pyStrip query))
          workload_response := agentResult (caps.workload (pyStrip query))
          final_response := finalResult (caps.consolidate (pyStrip query)
            (agentResult (caps.maintenance (pyStrip query)))
            (agentResult (caps.field_support (pyStrip query)))
            (agentResult (caps.workload (pyStrip query)))) },
       ⟨3, 1, ["maintenance_scheduler", "field_support", "workload_manager"]⟩) := by
  simp only [invoke, if_neg hq]
  simp [run_graph, orchestrate_response, route_to_agents,
    invoke_maintenance_scheduler, invoke_field_support,
    invoke_workload_manager, logCall, initial_state, hm, hf, hw]

/-- C1 witness: concrete run where one specialist raises and the
consolidation call fails, yet all three role entries and the final
response are produced. -/
theorem invoke_nonempty_query_completes_witness :
    pyStrip " hi " ≠ "" ∧
    invoke capsDemo " hi " =
      (InvokeResult.stateResult ⟨"hi", "M", "Error: boom", "W",
        "Error creating final response: no attribute"⟩,
       ⟨3, 1, ["maintenance_scheduler", "field_support", "workload_manager"]⟩) := by
  refine ⟨by decide, ?_⟩
  rw [invoke_nonempty_query_completes capsDemo " hi "
    (by decide) (by decide) (by decide) (by decide)]
  rfl

/-- C1 counterexample: with a generation capability that successfully
returns the empty string for the maintenance role — a legitimate value
of the external `generate(prompt) -> string` interface — the router
treats that role as unanswered forever, the recursion limit is
exhausted, and `invoke` on the non-empty query `"hi"` returns an
error-only mapping that contains none of the three role keys,
contradicting the claim as stated. -/
theorem invoke_empty_answer_cx :
    pyStrip "hi" = "hi" ∧
    (invoke capsEmptyAnswer "hi").1 =
      InvokeResult.errorResult
        "Multi-agent system invocation failed: recursion limit reached" := by
  exact ⟨by decide, by decide⟩

/-- C2: for every query that is empty or whitespace-only, `invoke`
short-circuits with the "Query cannot be empty" error before any
dispatch: zero specialist calls, zero consolidation calls, empty call
order. -/
theorem invoke_empty_query (caps : Capabilities) (query : String)
    (h : pyStrip query = "") :
    invoke caps query =
      (InvokeResult.errorResult "Query cannot be empty", ⟨0, 0, []⟩) := by
  rw [invoke, if_pos h]

/-- C2 witness: whitespace-only query. -/
theorem invoke_empty_query_witness :
    pyStrip "   " = "" ∧
    invoke capsDemo "   " =
      (InvokeResult.errorResult "Query cannot be empty", ⟨0, 0, []⟩) :=
  ⟨by decide, invoke_empty_query capsDemo "   " (by decide)⟩

/-- C3: for every text and every `chunk_size > overlap ≥ 0`, chunking
skips no content — zero-length input yields zero chunks, concatenating
chunk 0 with every later chunk minus its first `overlap` characters
reconstructs the text exactly, and every pair of consecutive chunks
agrees on an overlap region of exactly `overlap` characters (the
suffix of each chunk is the prefix of the next). -/
theorem chunk_text_spec (text : List Char) (cs ov : Nat) (hov : ov < cs) :
    (text = [] → chunk_text text cs ov = []) ∧
    joinWithOverlap ov (chunk_text text cs ov) = text ∧
    List.Chain' (fun a b => a.drop (a.length - ov) = b.take ov)
      (chunk_text text cs ov) := by
  refine ⟨?_, ?_, ?_⟩
  · intro h
    subst h
    rfl
  · rw [chunk_text, chunkTextAux]
    by_cases hs : 0 < text.length
    · rw [if_pos hs]
      by_cases hE : min (0 + cs) text.length = text.length
      · rw [if_pos hE]
        simp only [joinWithOverlap, List.map_nil, List.flatten_nil,
          List.append_nil]
        rw [hE, List.drop_zero, Nat.sub_zero, List.take_length]
      · rw [if_neg hE]
        have hcsL : 0 + cs < text.length := by
          rcases Nat.lt_or_ge (0 + cs) text.length with h1 | h1
          · exact h1
          · exact absurd (Nat.min_eq_right h1) hE
        have he : min (0 + cs) text.length = 0 + cs :=
          Nat.min_eq_left (Nat.le_of_lt hcsL)
        rw [he]
        simp only [joinWithOverlap, Nat.zero_add, Nat.sub_zero,
          List.drop_zero]
        rw [chunkTextAux_flatten_drop text cs ov hov text.length (cs - ov)
          (by omega)]
        have h1 : cs - ov + ov = cs := by omega
        rw [h1, List.take_append_drop]
    · rw [if_neg hs]
      have : text = [] := List.eq_nil_of_length_eq_zero (by omega)
      rw [this]
      rfl
  · rw [chunk_text]
    exact chunkTextAux_chain text cs ov hov (text.length + 1) 0 (by omega)

/-- C3 witness: `"abcdef"` with window 3 and overlap 1 chunks to
`["abc", "cde", "ef"]` and round-trips. -/
theorem chunk_text_spec_witness :
    (1 : Nat) < 3 ∧
    ((['a','b','c','d','e','f'] : List Char) = [] →
      chunk_text ['a','b','c','d','e','f'] 3 1 = []) ∧
    joinWithOverlap 1 (chunk_text ['a','b','c','d','e','f'] 3 1)
      = ['a','b','c','d','e','f'] ∧
    List.Chain' (fun a b => a.drop (a.length - 1) = b.take 1)
      (chunk_text ['a','b','c','d','e','f'] 3 1) :=
  ⟨by decide, chunk_text_spec ['a','b','c','d','e','f'] 3 1 (by decide)⟩

/-- C4: for every store, FAISS answer and `k`, the similarity scores of
the returned results are non-increasing along the sequence, every
returned score equals `1 / (1 + distance)` for distance > 0 and 1
otherwise (its own `similarity_score`), and that transform is
monotonically decreasing in the distance. -/
theorem search_documents_ordering (st : VectorStore)
    (faiss : Nat → List (ℚ × Nat)) (k : Nat) :
    List.Chain' (fun a b => b.score ≤ a.score) (search_documents st faiss k) ∧
    (∀ r ∈ search_documents st faiss k,
      r.score = similarity_score r.distance) ∧
    (∀ d1 d2 : ℚ, 0 ≤ d1 → d1 ≤ d2 →
      similarity_score d2 ≤ similarity_score d1) := by
  refine ⟨?_, ?_, ?_⟩
  · rw [search_documents]
    cases st.index with
    | none => exact List.chain'_nil
    | some v =>
      by_cases hd : st.documents.length = 0
      · rw [if_pos hd]; exact List.chain'_nil
      · rw [if_neg hd]; exact mergeSortScore_sorted _
  · intro r hr
    rw [search_documents] at hr
    cases hidx : st.index with
    | none => rw [hidx] at hr; exact absurd hr (List.not_mem_nil r)
    | some v =>
      rw [hidx] at hr
      by_cases hd : st.documents.length = 0
      · rw [if_pos hd] at hr; exact absurd hr (List.not_mem_nil r)
      · rw [if_neg hd] at hr
        have hr2 := (List.mergeSort_perm _ _).subset hr
        exact (searchRawResults_mem st _ r hr2).1
  · intro d1 d2 h0 h12
    rw [similarity_score, similarity_score]
    by_cases h1 : 0 < d1
    · rw [if_pos h1, if_pos (lt_of_lt_of_le h1 h12)]
      apply one_div_le_one_div_of_le
      · linarith
      · linarith
    · rw [if_neg h1]
      by_cases h2 : 0 < d2
      · rw [if_pos h2]
        rw [div_le_one (by linarith)]
        linarith
      · rw [if_neg h2]

/-- C4 witness: concrete two-record index with unsorted FAISS rows. -/
theorem search_documents_ordering_witness :
    List.Chain' (fun a b => b.score ≤ a.score)
      (search_documents stDemo faissDemo 5) ∧
    similarity_score 2 ≤ similarity_score 1 := by
  refine ⟨(search_documents_ordering stDemo faissDemo 5).1, ?_⟩
  exact (search_documents_ordering stDemo faissDemo 5).2.2 1 2
    (by norm_num) (by norm_num)

/-- C5: when every remote embedding attempt is denied,
`get_bedrock_embedding` aborts remote retries at the first denial (the
result is the fallback vector for every such oracle, independent of
later attempts), never raises (it is a total function), and returns
the local fallback model's vector or, when that is unavailable, the
zero vector — in either case a vector of the fallback's fixed
dimension 384. -/
theorem get_bedrock_embedding_access_denied (remote : Nat → RemoteOutcome)
    (localModel : Option (List ℚ))
    (hd : ∀ n, remote n = RemoteOutcome.accessDenied)
    (hl : ∀ v, localModel = some v → v.length = 384) :
    get_bedrock_embedding remote localModel = fallback_embedding localModel ∧
    (get_bedrock_embedding remote localModel).length = 384 ∧
    (localModel = none →
      get_bedrock_embedding remote localModel = List.replicate 384 0) := by
  have h1 : get_bedrock_embedding remote localModel
      = fallback_embedding localModel := by
    simp [get_bedrock_embedding, bedrockLoop, hd 0]
  refine ⟨h1, ?_, ?_⟩
  · rw [h1]
    cases hlm : localModel with
    | none =>
      show (List.replicate 384 (0 : ℚ)).length = 384
      rw [List.length_replicate]
    | some v =>
      show v.length = 384
      exact hl v hlm
  · intro h0
    rw [h1, h0]
    rfl

/-- C5 witness: denial on every attempt with the local model present. -/
theorem get_bedrock_embedding_access_denied_witness :
    remoteDenied 0 = RemoteOutcome.accessDenied ∧
    get_bedrock_embedding remoteDenied localDemo
      = fallback_embedding localDemo ∧
    (get_bedrock_embedding remoteDenied localDemo).length = 384 := by
  have h := get_bedrock_embedding_access_denied remoteDenied localDemo
    (fun _ => rfl)
    (by
      intro v hv
      simp only [localDemo, Option.some.injEq] at hv
      subst hv
      exact List.length_replicate 384 1)
  exact ⟨rfl, h.1, h.2.1⟩

/-- C6 (amended): dispatch is sequential, not concurrent — the router
selects exactly one role at a time in the fixed order maintenance
scheduler, field support, workload manager: on the initial state it
dispatches only the maintenance scheduler, the field support role is
dispatched only in states that already record a maintenance response,
and the workload role only once both earlier responses are recorded. -/
theorem dispatch_sequential (s : AgentState) :
    route_to_agents (initial_state s.query) = NextNode.maintenance_scheduler ∧
    (route_to_agents s = NextNode.field_support →
      s.maintenance_response ≠ "") ∧
    (route_to_agents s = NextNode.workload_manager →
      s.maintenance_response ≠ "" ∧ s.field_support_response ≠ "") := by
  refine ⟨rfl, ?_, ?_⟩
  · intro h
    rw [route_to_agents] at h
    by_cases h1 : s.maintenance_response = ""
    · rw [if_pos h1] at h
      exact absurd h (by decide)
    · exact h1
  · intro h
    rw [route_to_agents] at h
    by_cases h1 : s.maintenance_response = ""
    · rw [if_pos h1] at h
      exact absurd h (by decide)
    · rw [if_neg h1] at h
      by_cases h2 : s.field_support_response = ""
      · rw [if_pos h2] at h
        exact absurd h (by decide)
      · exact ⟨h1, h2⟩

/-- C6 witness: routing facts at concrete states. -/
theorem dispatch_sequential_witness :
    route_to_agents (initial_state "q") = NextNode.maintenance_scheduler ∧
    (⟨"q", "m", "", "", ""⟩ : AgentState).maintenance_response ≠ "" := by
  refine ⟨(dispatch_sequential (initial_state "q")).1, ?_⟩
  exact (dispatch_sequential ⟨"q", "m", "", "", ""⟩).2.1 (by decide)

/-- C6 counterexample: a full run dispatches the three roles one at a
time in a fixed order, and on the state in which dispatching starts the
router selects only the maintenance scheduler — the field support and
workload calls are not submitted at that point, contradicting the
claim that dispatch never waits for one role's completion before
starting another. -/
theorem dispatch_not_concurrent_cx :
    (invoke capsDemo "q").2.call_order =
      ["maintenance_scheduler", "field_support", "workload_manager"] ∧
    route_to_agents (initial_state "q") = NextNode.maintenance_scheduler ∧
    route_to_agents (initial_state "q") ≠ NextNode.field_support ∧
    route_to_agents (initial_state "q") ≠ NextNode.workload_manager := by
  refine ⟨by decide, rfl, by decide, by decide⟩

/-- C7 (amended): the build drops exactly the records whose embedding
vector is empty; there is no dimension check — when all retained
vectors share one dimension the build succeeds, the index holds
exactly the retained vectors and the stored record count equals the
number of retained records. -/
theorem create_vector_store_uniform_dims (embed : Doc → List ℚ)
    (docs : List Doc) (st : VectorStore)
    (hd : docs ≠ [])
    (hne : retained embed docs ≠ [])
    (hdim : ∀ p ∈ retained embed docs, ∀ q ∈ retained embed docs,
      p.2.length = q.2.length) :
    create_vector_store embed docs st =
      Except.ok { index := some ((retained embed docs).map Prod.snd)
                  documents := (retained embed docs).map Prod.fst } ∧
    ((retained embed docs).map Prod.fst).length
      = (retained embed docs).length := by
  obtain ⟨p, rest, hpr⟩ := List.exists_cons_of_ne_nil hne
  constructor
  · rw [create_vector_store, if_neg hd, hpr]
    have hall : rest.all (fun q => q.2.length = p.2.length) = true := by
      rw [List.all_eq_true]
      intro q hq
      rw [decide_eq_true_eq]
      exact hdim q (by rw [hpr]; exact List.mem_cons_of_mem p hq)
        p (by rw [hpr]; exact List.mem_cons_self p rest)
    simp only [hall, if_true]
  · rw [List.length_map]

/-- C7 witness: two records with equal-dimension embeddings are both
retained and counted. -/
theorem create_vector_store_uniform_dims_witness :
    (["a", "b"] : List Doc) ≠ [] ∧
    retained embed_pair ["a", "b"] ≠ [] ∧
    create_vector_store embed_pair ["a", "b"] ⟨none, []⟩ =
      Except.ok ⟨some [[1, 2], [1, 2]], ["a", "b"]⟩ ∧
    ((retained embed_pair ["a", "b"]).map Prod.fst).length
      = (retained embed_pair ["a", "b"]).length := by
  have h := create_vector_store_uniform_dims embed_pair ["a", "b"] ⟨none, []⟩
    (by decide) (by decide) (by decide)
  refine ⟨by decide, by decide, ?_, h.2⟩
  rw [h.1]
  rfl

/-- C7 counterexample: two records whose non-empty embeddings have
dimensions 1 and 2.  The claim requires the mismatched record to be
dropped and the build to succeed with the retained records; the code
instead appends both embeddings and the numpy array construction
raises, failing the whole build. -/
theorem create_vector_store_ragged_cx :
    create_vector_store embed_mixed ["a", "b"] ⟨none, []⟩ =
      Except.error "setting an array element with a sequence" := by
  rfl

/-- C8 (amended): the load reports success if and only if the index
artifact and the record-list artifact both exist — the metadata
document is optional; when present it must carry the
`total_documents` and `created_at` entries, but its recorded count is
never compared with the loaded record list's length. -/
theorem load_vector_store_succeeds_iff (a : Artifacts) (st : VectorStore) :
    (load_vector_store a st).1 = true ↔
      ((∃ idx, a.index_file = some idx) ∧
       (∃ docs, a.documents_file = some docs) ∧
       (a.metadata_file = none ∨
        ∃ m, a.metadata_file = some m ∧
          m.total_documents ≠ none ∧ m.created_at ≠ none)) := by
  obtain ⟨i, d, mo⟩ := a
  cases i with
  | none => simp [load_vector_store]
  | some idx =>
    cases d with
    | none => simp [load_vector_store]
    | some docs =>
      cases mo with
      | none => simp [load_vector_store]
      | some m =>
        obtain ⟨td, ca⟩ := m
        cases td <;> cases ca <;> simp [load_vector_store]

/-- C8 witness: load succeeds with the metadata document absent. -/
theorem load_vector_store_succeeds_iff_witness :
    (load_vector_store artifacts_no_metadata ⟨none, []⟩).1 = true :=
  (load_vector_store_succeeds_iff artifacts_no_metadata ⟨none, []⟩).mpr
    ⟨⟨[[1]], rfl⟩, ⟨["d1"], rfl⟩, Or.inl rfl⟩

/-- C8 counterexample: the claim requires success only when all three
artifacts exist and the metadata count matches the record list.  The
code succeeds on artifacts whose metadata records 5 documents while
the loaded list holds 2, and also succeeds with no metadata document
at all. -/
theorem load_vector_store_cx :
    load_vector_store artifacts_inconsistent ⟨none, []⟩ =
      (true, ⟨some [[1]], ["d1", "d2"]⟩) ∧
    artifacts_inconsistent.metadata_file =
      some ⟨some 5, some "2024-01-01"⟩ ∧
    (5 : Nat) ≠ (["d1", "d2"] : List Doc).length ∧
    (load_vector_store artifacts_no_metadata ⟨none, []⟩).1 = true := by
  refine ⟨rfl, rfl, by decide, rfl⟩

/-- C9: assuming the FAISS contract that a search for `j` neighbours
returns at most `j` rows, `search_documents` returns at most
`min(requested_k, stored_record_count)` results, and every returned
result's document is an element of the stored record list (the
slot-index guard makes out-of-bounds access impossible). -/
theorem search_documents_bounds (st : VectorStore)
    (faiss : Nat → List (ℚ × Nat)) (k : Nat)
    (hfa : (faiss (min k st.documents.length)).length
      ≤ min k st.documents.length) :
    (search_documents st faiss k).length ≤ min k st.documents.length ∧
    ∀ r ∈ search_documents st faiss k, r.document ∈ st.documents := by
  constructor
  · rw [search_documents]
    cases st.index with
    | none => exact Nat.zero_le _
    | some v =>
      by_cases hd : st.documents.length = 0
      · rw [if_pos hd]; exact Nat.zero_le _
      · rw [if_neg hd]
        rw [(List.mergeSort_perm _ _).length_eq]
        exact le_trans (List.length_filterMap_le _ _) hfa
  · intro r hr
    rw [search_documents] at hr
    cases hidx : st.index with
    | none => rw [hidx] at hr; exact absurd hr (List.not_mem_nil r)
    | some v =>
      rw [hidx] at hr
      by_cases hd : st.documents.length = 0
      · rw [if_pos hd] at hr; exact absurd hr (List.not_mem_nil r)
      · rw [if_neg hd] at hr
        have hr2 := (List.mergeSort_perm _ _).subset hr
        exact (searchRawResults_mem st _ r hr2).2

/-- C9 witness: concrete two-record index searched with `k = 5`. -/
theorem search_documents_bounds_witness :
    (faissDemo (min 5 stDemo.documents.length)).length
      ≤ min 5 stDemo.documents.length ∧
    (search_documents stDemo faissDemo 5).length
      ≤ min 5 stDemo.documents.length ∧
    ∀ r ∈ search_documents stDemo faissDemo 5,
      r.document ∈ stDemo.documents := by
  refine ⟨by decide, ?_⟩
  exact search_documents_bounds stDemo faissDemo 5 (by decide)

/-- C10: `create_vector_store` is atomic on failure — called with an
empty document list, or with documents for which every embedding comes
back empty (zero valid embeddings), it returns with the store exactly
as it was. -/
theorem create_vector_store_noop (embed : Doc → List ℚ) (docs : List Doc)
    (st : VectorStore)
    (h : docs = [] ∨ ∀ d ∈ docs, embed d = []) :
    create_vector_store embed docs st = Except.ok st := by
  by_cases hd : docs = []
  · rw [create_vector_store, if_pos hd]
  · have hr : retained embed docs = [] := by
      rw [retained, List.filterMap_eq_nil_iff]
      intro d hdmem
      rcases h with h | h
      · exact absurd h hd
      · rw [if_pos (h d hdmem)]
    rw [create_vector_store, if_neg hd, hr]

/-- C10 witness: a store with an existing index and record list is left
unchanged both for an empty batch and for a batch whose only embedding
is empty. -/
theorem create_vector_store_noop_witness :
    embed_none "x" = [] ∧
    create_vector_store embed_none ["x"] ⟨some [[1]], ["d"]⟩ =
      Except.ok ⟨some [[1]], ["d"]⟩ ∧
    create_vector_store embed_none [] ⟨some [[1]], ["d"]⟩ =
      Except.ok ⟨some [[1]], ["d"]⟩ := by
  refine ⟨rfl, ?_, ?_⟩
  · exact create_vector_store_noop embed_none ["x"] ⟨some [[1]], ["d"]⟩
      (Or.inr (fun d _ => rfl))
  · exact create_vector_store_noop embed_none [] ⟨some [[1]], ["d"]⟩
      (Or.inl rfl)
